import Mathlib

/-!
Shallow embedding of the AWADS orchestration core (src/main.js,
src/whatsappClient.js, src/unnamed/part_000 = config.js).

The repository is a Node.js event-loop program.  Pure control flow is
translated into Lean functions; JavaScript `Map` objects become
insertion-ordered association lists; asynchronous steps become an explicit
step relation on a system state.  Strings are modelled as Lean `String`;
JavaScript "missing field" (`undefined`/falsy) becomes the empty string,
matching the truthiness checks in the source.
-/

/-- One entry of `operation.clientsUsed` in main.js: the object
`{ id, status: 'success' | 'failed', error? }` pushed at lines 211/214. -/
structure Outcome where
  id : String
  status : String
  error : Option String
deriving DecidableEq, Repr

/-- The mutable fields of a `WhatsAppClientManager` (whatsappClient.js) that
the orchestration logic reads: `clientId`, `status`, `qrCode`.  The
`transportOk` flag models the behaviour of the wrapped external connection
`this.client` (an external collaborator): `true` means its calls resolve,
`false` means they reject. -/
structure ClientManager where
  clientId : String
  status : String
  qrCode : Option String
  transportOk : Bool
deriving DecidableEq, Repr

/-- An entry of `activeOperations` in main.js (lines 145-152): the record
`{ id, targetNumber, banType, status, clientsUsed, startTime }` (timestamps
are not modelled; nothing reads them). -/
structure Operation where
  id : String
  targetNumber : String
  banType : String
  status : String
  clientsUsed : List Outcome
deriving DecidableEq, Repr

/-- Insertion-ordered association list lookup, modelling `Map.get`. -/
def alGet {β : Type} (k : String) : List (String × β) → Option β
  | [] => none
  | (k', v) :: rest => if k' = k then some v else alGet k rest

/-- `Map.set`: update in place if the key is present (JS preserves the
original insertion position), otherwise append at the end. -/
def alSet {β : Type} (k : String) (v : β) : List (String × β) → List (String × β)
  | [] => [(k, v)]
  | (k', v') :: rest => if k' = k then (k, v) :: rest else (k', v') :: alSet k v rest

/-- `Map.delete`: remove the entry for `k`.  JS `Map` keys are unique, so
removing every occurrence coincides with `Map.delete` on every state the
program builds. -/
def alDelete {β : Type} (k : String) : List (String × β) → List (String × β)
  | [] => []
  | (k', v) :: rest => if k' = k then alDelete k rest else (k', v) :: alDelete k rest

theorem alGet_alSet_self {β : Type} (k : String) (v : β) (l : List (String × β)) :
    alGet k (alSet k v l) = some v := by
  induction l with
  | nil => simp [alGet, alSet]
  | cons p rest ih =>
    obtain ⟨k', v'⟩ := p
    by_cases h : k' = k
    · simp [alGet, alSet, h]
    · simp [alGet, alSet, h, ih]

theorem alGet_alSet_of_ne {β : Type} (k k' : String) (v : β) (l : List (String × β))
    (h : k' ≠ k) : alGet k' (alSet k v l) = alGet k' l := by
  induction l with
  | nil => simp [alGet, alSet, Ne.symm h]
  | cons p rest ih =>
    obtain ⟨k₀, v₀⟩ := p
    by_cases hk : k₀ = k
    · subst hk
      simp [alGet, alSet, Ne.symm h]
    · simp only [alSet, if_neg hk]
      by_cases hk' : k₀ = k'
      · simp [alGet, hk']
      · simp [alGet, hk', ih]

theorem alGet_alDelete_self {β : Type} (k : String) (l : List (String × β)) :
    alGet k (alDelete k l) = none := by
  induction l with
  | nil => simp [alGet, alDelete]
  | cons p rest ih =>
    obtain ⟨k', v⟩ := p
    by_cases h : k' = k
    · simp [alDelete, h, ih]
    · simp [alGet, alDelete, h, ih]

theorem alGet_alDelete_of_ne {β : Type} (k k' : String) (l : List (String × β))
    (h : k' ≠ k) : alGet k' (alDelete k l) = alGet k' l := by
  induction l with
  | nil => simp [alDelete]
  | cons p rest ih =>
    obtain ⟨k₀, v⟩ := p
    by_cases hk : k₀ = k
    · subst hk
      simp [alGet, alDelete, Ne.symm h, ih]
    · simp only [alDelete, if_neg hk]
      by_cases hk' : k₀ = k'
      · simp [alGet, hk']
      · simp [alGet, hk', ih]

theorem alGet_append_right {β : Type} (k : String) (v : β) (l : List (String × β))
    (h : alGet k l = none) : alGet k (l ++ [(k, v)]) = some v := by
  induction l with
  | nil => simp [alGet]
  | cons p rest ih =>
    obtain ⟨k', v'⟩ := p
    by_cases hk : k' = k
    · simp [alGet, hk] at h
    · simp only [alGet, if_neg hk] at h ⊢
      exact ih h

theorem alGet_mem_map_snd {β : Type} (k : String) (v : β) (l : List (String × β))
    (h : alGet k l = some v) : v ∈ l.map Prod.snd := by
  induction l with
  | nil => simp [alGet] at h
  | cons p rest ih =>
    obtain ⟨k', v'⟩ := p
    by_cases hk : k' = k
    · simp [alGet, hk] at h
      simp [h]
    · simp only [alGet, if_neg hk] at h
      simp [ih h]

/-- The constant block of config.js (src/unnamed/part_000) that the
orchestration logic reads. -/
structure Config where
  workersCount : Nat
  massReportCount : Nat
  messageFloodCount : Nat
  groupInviteCount : Nat
deriving DecidableEq, Repr

/-- Default values from config.js: WHATSAPP_WORKERS_COUNT = 5,
MASS_REPORT_COUNT = 50, MESSAGE_FLOOD_COUNT = 100, GROUP_INVITE_COUNT = 10. -/
def cfgDefault : Config :=
  { workersCount := 5, massReportCount := 50, messageFloodCount := 100, groupInviteCount := 10 }

/-- Error message thrown by `WhatsAppClientManager.sendMessage`
(whatsappClient.js line 119) when the session is not ready. -/
def notReadySendMsg (m : ClientManager) : String :=
  "Client " ++ m.clientId ++ " is not ready to send messages. Status: " ++ m.status

/-- Error message thrown by `WhatsAppClientManager.sendReport`
(whatsappClient.js line 128) when the session is not ready. -/
def notReadyReportMsg (m : ClientManager) : String :=
  "Client " ++ m.clientId ++ " is not ready to report. Status: " ++ m.status

/-- Error message thrown by `WhatsAppClientManager.addTargetToGroup`
(whatsappClient.js line 146) when the session is not ready. -/
def notReadyGroupMsg (m : ClientManager) : String :=
  "Client " ++ m.clientId ++ " is not ready to create/add to group. Status: " ++ m.status

/-- Opaque error text of a rejected call on the wrapped external connection
(`this.client`); its exact content comes from the external library. -/
def transportErrorMsg : String := "transport failure"

/-- `WhatsAppClientManager.sendMessage(targetNumber, message)`
(whatsappClient.js lines 117-123).  First component: the call's result;
second component: how many times the wrapped connection `this.client` was
invoked (0 or 1). -/
def sendMessageM (m : ClientManager) (targetNumber message : String) :
    Except String Unit × Nat :=
  if m.status = "ready" then
    (if m.transportOk then (Except.ok (), 1) else (Except.error transportErrorMsg, 1))
  else (Except.error (notReadySendMsg m), 0)

/-- `WhatsAppClientManager.sendReport(targetNumber, reportType)`
(whatsappClient.js lines 126-141).  The report is simulated: when the
session is ready the method only logs and returns true, so the wrapped
connection is never invoked (second component 0 on both paths). -/
def sendReportM (m : ClientManager) (targetNumber reportType : String) :
    Except String Unit × Nat :=
  if m.status = "ready" then (Except.ok (), 0)
  else (Except.error (notReadyReportMsg m), 0)

/-- `WhatsAppClientManager.addTargetToGroup(targetNumber, groupSubject)`
(whatsappClient.js lines 144-156): after the ready check it calls
`this.client.createGroup`; a rejection is caught and rethrown with the
prefix "Failed to add target to group: ". -/
def addTargetToGroupM (m : ClientManager) (targetNumber groupSubject : String) :
    Except String Unit × Nat :=
  if m.status = "ready" then
    (if m.transportOk then (Except.ok (), 1)
     else (Except.error ("Failed to add target to group: " ++ transportErrorMsg), 1))
  else (Except.error (notReadyGroupMsg m), 0)

theorem sendMessageM_not_ready (m : ClientManager) (t x : String) (h : m.status ≠ "ready") :
    sendMessageM m t x = (Except.error (notReadySendMsg m), 0) := by
  simp [sendMessageM, h]

theorem sendReportM_not_ready (m : ClientManager) (t r : String) (h : m.status ≠ "ready") :
    sendReportM m t r = (Except.error (notReadyReportMsg m), 0) := by
  simp [sendReportM, h]

theorem addTargetToGroupM_not_ready (m : ClientManager) (t g : String) (h : m.status ≠ "ready") :
    addTargetToGroupM m t g = (Except.error (notReadyGroupMsg m), 0) := by
  simp [addTargetToGroupM, h]

/-- C6: For every worker session whose state is not exactly `ready`, each of
the three dispatchable strategy actions (send message, send report,
add-to-group) fails with the corresponding not-ready error and the wrapped
client connection is never invoked (invocation count 0). -/
theorem C6_dispatch_not_ready (m : ClientManager) (t msg rep grp : String)
    (h : m.status ≠ "ready") :
    sendMessageM m t msg = (Except.error (notReadySendMsg m), 0) ∧
    sendReportM m t rep = (Except.error (notReadyReportMsg m), 0) ∧
    addTargetToGroupM m t grp = (Except.error (notReadyGroupMsg m), 0) :=
  ⟨sendMessageM_not_ready m t msg h, sendReportM_not_ready m t rep h,
    addTargetToGroupM_not_ready m t grp h⟩

/-- A session sitting in the `error` state, used as a concrete non-ready input. -/
def mError : ClientManager :=
  { clientId := "client_1", status := "error", qrCode := none, transportOk := true }

/-- C6 witness: instantiating the dispatch theorem at a concrete `error`
session. -/
theorem C6_dispatch_not_ready_witness :
    sendMessageM mError "t" "m" = (Except.error (notReadySendMsg mError), 0) ∧
    sendReportM mError "t" "spam" = (Except.error (notReadyReportMsg mError), 0) ∧
    addTargetToGroupM mError "t" "g" = (Except.error (notReadyGroupMsg mError), 0) :=
  C6_dispatch_not_ready mError "t" "m" "spam" "g" (by decide)

/-- Number of iterations of the JavaScript loop
`for (let i = 0; i < total / n; i++)` (main.js lines 180/187/194).  JS `/`
is real division, so for `n > 0` the loop runs `⌈total / n⌉` times; `n = 0`
would diverge and is unreachable (the `/ban` handler guards a non-empty
pool). -/
def jsLoopCount (total n : Nat) : Nat :=
  if n = 0 then 0 else (total + n - 1) / n

/-- The repeat loop of one strategy case in `executeBanStrategy`: the bound
is fixed before the loop, every iteration performs the same dispatch (its
result does not vary across iterations in the model), and a rejection
escapes the loop into the surrounding catch.  Returns (number of dispatches
performed, first error if any). -/
def runStrategyLoop (step : Except String Unit) : Nat → Nat × Option String
  | 0 => (0, none)
  | k + 1 =>
    match step with
    | Except.error e => (1, some e)
    | Except.ok _ =>
      let r := runStrategyLoop step k
      (r.1 + 1, r.2)

theorem runStrategyLoop_ok (k : Nat) : runStrategyLoop (Except.ok ()) k = (k, none) := by
  induction k with
  | zero => rfl
  | succ n ih => simp [runStrategyLoop, ih]

/-- `config.WHATSAPP_WORKERS_COUNT || 1` (main.js line 171): JS `||` falls
back to 1 when the count is 0 (falsy). -/
def capOf (cfg : Config) : Nat :=
  if cfg.workersCount = 0 then 1 else cfg.workersCount

/-- The `for (const clientManager of clients)` loop with the
`usedClientCount >= cap` break (main.js lines 170-171, 218): exactly the
first `capOf cfg` clients of the list get a task. -/
def selectClients (cfg : Config) (clients : List ClientManager) : List ClientManager :=
  clients.take (capOf cfg)

/-- The `switch (banType)` of one worker task (main.js lines 178-210):
which dispatch runs, how many times (note the divisor is `clients.length`,
the length of the full list passed in), and the first error thrown.  The
randomized report type / message text / group subject never influence
success or failure, so fixed placeholder strings stand in for them.
`2FA_PROBE` and the default case dispatch nothing. -/
def clientTaskRaw (cfg : Config) (banType targetNumber : String) (numClients : Nat)
    (m : ClientManager) : Nat × Option String :=
  if banType = "REPORT_FLOOD" then
    runStrategyLoop (sendReportM m targetNumber "spam").1
      (jsLoopCount cfg.massReportCount numClients)
  else if banType = "MESSAGE_DELUGE" then
    runStrategyLoop (sendMessageM m targetNumber "Urgent Alert! Action Required!").1
      (jsLoopCount cfg.messageFloodCount numClients)
  else if banType = "GROUP_POISON" then
    runStrategyLoop (addTargetToGroupM m targetNumber "Urgent Alert Group").1
      (jsLoopCount cfg.groupInviteCount numClients)
  else if banType = "2FA_PROBE" then (0, none)
  else (0, none)

/-- One worker's task body (main.js lines 173-217): run the switch inside
`try`; on normal exit push `{id, status:'success'}`, on a thrown error push
`{id, status:'failed', error}` (the catch swallows the error).  Returns the
pushed outcome together with the number of strategy dispatches performed. -/
def clientTask (cfg : Config) (banType targetNumber : String) (numClients : Nat)
    (m : ClientManager) : Outcome × Nat :=
  match clientTaskRaw cfg banType targetNumber numClients m with
  | (k, none) => ({ id := m.clientId, status := "success", error := none }, k)
  | (k, some e) => ({ id := m.clientId, status := "failed", error := some e }, k)

/-- The outcome list accumulated in `operation.clientsUsed` once
`Promise.allSettled` has resolved (main.js line 221); the real push order is
completion order, the model lists them in selection order. -/
def execOutcomes (cfg : Config) (banType targetNumber : String)
    (clients : List ClientManager) : List Outcome :=
  (selectClients cfg clients).map
    (fun m => (clientTask cfg banType targetNumber clients.length m).1)

/-- Per selected worker, how many strategy dispatches its task performed. -/
def strategyInvocations (cfg : Config) (banType targetNumber : String)
    (clients : List ClientManager) : List Nat :=
  (selectClients cfg clients).map
    (fun m => (clientTask cfg banType targetNumber clients.length m).2)

/-- Net effect of `executeBanStrategy` on its operation record (main.js
lines 160-228): status ends at `completed` with the accumulated outcomes. -/
def executeBanStrategyResult (cfg : Config) (opId targetNumber banType : String)
    (clients : List ClientManager) : Operation :=
  { id := opId, targetNumber := targetNumber, banType := banType,
    status := "completed",
    clientsUsed := execOutcomes cfg banType targetNumber clients }

/-- A worker session in the `ready` state with a functioning connection. -/
def mkReady (id : String) : ClientManager :=
  { clientId := id, status := "ready", qrCode := none, transportOk := true }

theorem jsLoopCount_eq_floor_cases (total n : Nat) (hn : n ≠ 0) :
    jsLoopCount total n = if n ∣ total then total / n else total / n + 1 := by
  unfold jsLoopCount
  rw [if_neg hn]
  have hpos : 0 < n := Nat.pos_of_ne_zero hn
  by_cases hd : n ∣ total
  · rw [if_pos hd]
    obtain ⟨q, rfl⟩ := hd
    have h1 : n * q + n - 1 = (n - 1) + n * q := by
      have h2 : ∀ a : Nat, a + n - 1 = (n - 1) + a := by intro a; omega
      exact h2 (n * q)
    rw [h1, Nat.add_mul_div_left _ _ hpos, Nat.div_eq_of_lt (by omega),
      Nat.mul_div_cancel_left q hpos, Nat.zero_add]
  · rw [if_neg hd]
    have hq : n * (total / n) + total % n = total := Nat.div_add_mod total n
    have hr0 : total % n ≠ 0 := fun h => hd (Nat.dvd_of_mod_eq_zero h)
    have hrlt : total % n < n := Nat.mod_lt _ hpos
    have hms : n * (total / n + 1) = n * (total / n) + n := Nat.mul_succ n (total / n)
    have h2 : total + n - 1 = (total % n - 1) + n * (total / n + 1) := by
      rw [hms]
      set A := n * (total / n) with hA
      set R := total % n with hR
      omega
    rw [h2, Nat.add_mul_div_left _ _ hpos, Nat.div_eq_of_lt (by omega), Nat.zero_add]

theorem clientTaskRaw_ready (cfg : Config) (b t : String) (nc : Nat) (m : ClientManager)
    (hst : m.status = "ready") (htr : m.transportOk = true) :
    clientTaskRaw cfg "REPORT_FLOOD" t nc m = (jsLoopCount cfg.massReportCount nc, none) ∧
    clientTaskRaw cfg "MESSAGE_DELUGE" t nc m = (jsLoopCount cfg.messageFloodCount nc, none) ∧
    clientTaskRaw cfg "GROUP_POISON" t nc m = (jsLoopCount cfg.groupInviteCount nc, none) := by
  refine ⟨?_, ?_, ?_⟩ <;>
    simp [clientTaskRaw, sendReportM, sendMessageM, addTargetToGroupM, hst, htr,
      runStrategyLoop_ok]

/-- C1 counterexample: with the repository's config (MASS_REPORT_COUNT = 50,
worker cap 5) and 3 ready workers, every selected worker's strategy is
invoked 17 times, while floor(50 / 3) = 16 — the remainder is not dropped,
the loop bound `i < 50 / 3` uses JS real division and rounds up. -/
theorem C1_counterexample :
    strategyInvocations cfgDefault "REPORT_FLOOD" "T1"
      [mkReady "client_1", mkReady "client_2", mkReady "client_3"] = [17, 17, 17] ∧
    cfgDefault.massReportCount / 3 = 16 ∧ (17 : Nat) ≠ 16 := by
  refine ⟨?_, by decide, by decide⟩
  decide

/-- C1 (amended): for every submitted operation with total count C executed
over n ready, functioning workers (0 < n ≤ worker cap, so all of them are
selected), each selected worker's strategy is invoked exactly ⌈C / n⌉ times
— C / n (integer division) when n divides C and C / n + 1 otherwise; the
remainder is not dropped but rounded up.  In particular with 2 ready workers
and count 10 each worker is apportioned exactly 5 repeats. -/
theorem C1_apportionment_ceiling (cfg : Config) (t : String) (clients : List ClientManager)
    (hne : clients ≠ []) (hcap : clients.length ≤ capOf cfg)
    (hready : ∀ m ∈ clients, m.status = "ready" ∧ m.transportOk = true) :
    (strategyInvocations cfg "REPORT_FLOOD" t clients =
      clients.map (fun _ => jsLoopCount cfg.massReportCount clients.length)) ∧
    (strategyInvocations cfg "MESSAGE_DELUGE" t clients =
      clients.map (fun _ => jsLoopCount cfg.messageFloodCount clients.length)) ∧
    (strategyInvocations cfg "GROUP_POISON" t clients =
      clients.map (fun _ => jsLoopCount cfg.groupInviteCount clients.length)) ∧
    (∀ total : Nat, jsLoopCount total clients.length =
      if clients.length ∣ total then total / clients.length
      else total / clients.length + 1) := by
  have hlen : clients.length ≠ 0 := fun h => hne (List.eq_nil_of_length_eq_zero h)
  have hsel : selectClients cfg clients = clients := List.take_of_length_le hcap
  refine ⟨?_, ?_, ?_, fun total => jsLoopCount_eq_floor_cases total clients.length hlen⟩ <;>
  · unfold strategyInvocations
    rw [hsel]
    refine List.map_congr_left (fun m hm => ?_)
    obtain ⟨hst, htr⟩ := hready m hm
    obtain ⟨h1, h2, h3⟩ := clientTaskRaw_ready cfg "" t clients.length m hst htr
    simp [clientTask, h1, h2, h3]

/-- The spec scenario's configuration: count 10 for the report strategy,
worker cap 5. -/
def cfgScenario : Config :=
  { workersCount := 5, massReportCount := 10, messageFloodCount := 100, groupInviteCount := 10 }

/-- C1 witness: the spec scenario — 2 ready workers, count 10, cap 5 —
yields exactly 5 repeats for each of the two selected workers. -/
theorem C1_apportionment_ceiling_witness :
    strategyInvocations cfgScenario "REPORT_FLOOD" "T1" [mkReady "w1", mkReady "w2"] = [5, 5] := by
  have h := C1_apportionment_ceiling cfgScenario "T1" [mkReady "w1", mkReady "w2"]
    (by decide) (by decide) (by decide)
  rw [h.1]
  decide

/-- C2 counterexample: a submission with the unknown strategy kind
"UNKNOWN_KIND" over one selected ready worker completes, but the outcomes
list is NOT empty: the success push sits after the switch, outside it, so
the worker records a success outcome. -/
theorem C2_counterexample :
    (executeBanStrategyResult cfgDefault "op1" "T1" "UNKNOWN_KIND" [mkReady "client_1"]).status
      = "completed" ∧
    (executeBanStrategyResult cfgDefault "op1" "T1" "UNKNOWN_KIND" [mkReady "client_1"]).clientsUsed
      = [{ id := "client_1", status := "success", error := none }] ∧
    (executeBanStrategyResult cfgDefault "op1" "T1" "UNKNOWN_KIND" [mkReady "client_1"]).clientsUsed
      ≠ [] := by
  refine ⟨rfl, ?_, ?_⟩ <;> decide

/-- C2 (amended): for every submission whose strategy kind is not one of the
known kinds, no strategy dispatch is performed for any selected worker (only
a warning is logged), the operation still reaches state `completed`, but
each selected worker nevertheless records a `success` outcome — the
outcomes list has one entry per selected worker, not zero. -/
theorem C2_unknown_strategy (cfg : Config) (opId t b : String) (clients : List ClientManager)
    (h1 : b ≠ "REPORT_FLOOD") (h2 : b ≠ "MESSAGE_DELUGE") (h3 : b ≠ "GROUP_POISON")
    (h4 : b ≠ "2FA_PROBE") :
    (executeBanStrategyResult cfg opId t b clients).status = "completed" ∧
    (executeBanStrategyResult cfg opId t b clients).clientsUsed =
      (selectClients cfg clients).map
        (fun m => { id := m.clientId, status := "success", error := none }) ∧
    strategyInvocations cfg b t clients = (selectClients cfg clients).map (fun _ => 0) := by
  refine ⟨rfl, ?_, ?_⟩ <;>
    simp [executeBanStrategyResult, execOutcomes, strategyInvocations, clientTask,
      clientTaskRaw, h1, h2, h3, h4]

/-- C2 witness: a concrete unknown-kind submission over one ready worker. -/
theorem C2_unknown_strategy_witness :
    (executeBanStrategyResult cfgDefault "op2" "T1" "NO_SUCH_KIND" [mkReady "w1"]).status
      = "completed" ∧
    (executeBanStrategyResult cfgDefault "op2" "T1" "NO_SUCH_KIND" [mkReady "w1"]).clientsUsed
      = (selectClients cfgDefault [mkReady "w1"]).map
          (fun m => { id := m.clientId, status := "success", error := none }) ∧
    strategyInvocations cfgDefault "NO_SUCH_KIND" "T1" [mkReady "w1"]
      = (selectClients cfgDefault [mkReady "w1"]).map (fun _ => 0) :=
  C2_unknown_strategy cfgDefault "op2" "T1" "NO_SUCH_KIND" [mkReady "w1"]
    (by decide) (by decide) (by decide) (by decide)

/-- C4: every operation that the executor finishes is `completed` with one
outcome per worker selected at dispatch time — outcomes length equals
min(cap, number of workers handed to the executor); the i-th outcome is a
function of the i-th selected worker alone (so one worker's failure never
aborts or blocks another's task); and every outcome is either a success
without error or a failure carrying a reason. -/
theorem C4_outcomes_one_per_selected_worker (cfg : Config) (opId t b : String)
    (clients : List ClientManager) :
    (executeBanStrategyResult cfg opId t b clients).status = "completed" ∧
    (executeBanStrategyResult cfg opId t b clients).clientsUsed.length
      = (selectClients cfg clients).length ∧
    (selectClients cfg clients).length = min (capOf cfg) clients.length ∧
    (∀ i : Nat, (executeBanStrategyResult cfg opId t b clients).clientsUsed[i]?
      = (selectClients cfg clients)[i]?.map
          (fun m => (clientTask cfg b t clients.length m).1)) ∧
    (∀ o ∈ (executeBanStrategyResult cfg opId t b clients).clientsUsed,
      (o.status = "success" ∧ o.error = none) ∨
      (o.status = "failed" ∧ o.error ≠ none)) := by
  refine ⟨rfl, by simp [executeBanStrategyResult, execOutcomes], ?_, ?_, ?_⟩
  · simp [selectClients, List.length_take]
  · intro i
    simp [executeBanStrategyResult, execOutcomes, List.getElem?_map]
  · intro o ho
    simp only [executeBanStrategyResult, execOutcomes, List.mem_map] at ho
    obtain ⟨m, hm, rfl⟩ := ho
    rcases hraw : clientTaskRaw cfg b t clients.length m with ⟨k, err⟩
    cases err with
    | none => left; simp [clientTask, hraw]
    | some e => right; simp [clientTask, hraw]

/-- The ambient mutable state of main.js: `whatsappClients` (line 25),
`myCache` restricted to the `qr_` entries the orchestration reads (line 10),
`activeOperations` (line 26), and the set of `initializeWhatsAppClient`
calls currently scheduled through `setTimeout` (line 61). -/
structure SysState where
  whatsappClients : List (String × ClientManager)
  qrCache : List (String × String)
  activeOperations : List (String × Operation)
  pendingReinits : List String
deriving DecidableEq, Repr

/-- The empty startup state, before the initial pool loop runs. -/
def emptyState : SysState :=
  { whatsappClients := [], qrCache := [], activeOperations := [], pendingReinits := [] }

/-- `updateClientStatus(clientId, status, qrCode)` (main.js lines 49-64):
if the client is mapped, overwrite its status; cache or evict the QR code;
and when the new status is `destroyed`, `error` or `disconnected`, schedule
a delayed `initializeWhatsAppClient(clientId)` (the `setTimeout` at line 61,
modelled by appending to `pendingReinits`). -/
def updateClientStatus (clientId status : String) (qrCode : Option String)
    (s : SysState) : SysState :=
  match alGet clientId s.whatsappClients with
  | none => s
  | some c =>
    let s1 :=
      match qrCode with
      | some q =>
        { s with
          whatsappClients :=
            alSet clientId { c with status := status, qrCode := some q } s.whatsappClients,
          qrCache := alSet ("qr_" ++ clientId) q s.qrCache }
      | none =>
        { s with
          whatsappClients := alSet clientId { c with status := status } s.whatsappClients,
          qrCache := alDelete ("qr_" ++ clientId) s.qrCache }
    if status = "destroyed" ∨ status = "error" ∨ status = "disconnected" then
      { s1 with pendingReinits := s1.pendingReinits ++ [clientId] }
    else s1

/-- A freshly constructed `WhatsAppClientManager` (whatsappClient.js lines
9-17): status starts at `idle`, no QR code yet. -/
def newManager (clientId : String) : ClientManager :=
  { clientId := clientId, status := "idle", qrCode := none, transportOk := true }

/-- `initializeWhatsAppClient(clientId)` (main.js lines 34-47): if the id is
already mapped, the old manager is destroyed (the destroy is NOT awaited;
its status callback resolves later, as a separately scheduled asynchronous
effect outside this synchronous body) and evicted, then a fresh manager is
constructed and mapped under the same id. -/
def initializeWhatsAppClient (clientId : String) (s : SysState) : SysState :=
  if (alGet clientId s.whatsappClients).isSome then
    let s1 := { s with whatsappClients := alDelete clientId s.whatsappClients }
    { s1 with whatsappClients := s1.whatsappClients ++ [(clientId, newManager clientId)] }
  else
    { s with whatsappClients := s.whatsappClients ++ [(clientId, newManager clientId)] }

/-- The startup pool loop (main.js lines 29-32): initialize
`client_1 .. client_n`. -/
def initialPool (n : Nat) : SysState :=
  (List.range n).foldl
    (fun s i => initializeWhatsAppClient ("client_" ++ toString (i + 1)) s) emptyState

/-- `POST /whatsapp/add` (main.js lines 98-115): the new identity is
`client_` followed by (current map size + 1); then
`initializeWhatsAppClient`.  The QR polling loop only reads the cache and is
not modelled.  Returns (clientId of the response, next state). -/
def addWorker (s : SysState) : String × SysState :=
  let newClientId := "client_" ++ toString (s.whatsappClients.length + 1)
  (newClientId, initializeWhatsAppClient newClientId s)

/-- `POST /whatsapp/remove` (main.js lines 118-129): unknown id → 404 and
nothing changes; otherwise `await client.destroy()` — which sets the
manager's status to `destroyed` and fires the status callback
(whatsappClient.js lines 96-107) while the manager is still mapped, so
`updateClientStatus` runs its `destroyed` branch and schedules a delayed
re-initialization — and only then is the id deleted from the map.  Returns
(HTTP status, next state). -/
def removeClient (clientId : String) (s : SysState) : Nat × SysState :=
  match alGet clientId s.whatsappClients with
  | none => (404, s)
  | some c =>
    let s1 :=
      { s with
        whatsappClients := alSet clientId { c with status := "destroyed" } s.whatsappClients }
    let s2 := updateClientStatus clientId "destroyed" none s1
    (200, { s2 with whatsappClients := alDelete clientId s2.whatsappClients })

/-- One scheduled `setTimeout(() => initializeWhatsAppClient(clientId), 5000)`
(main.js line 61) firing: the pending entry is consumed and the client
re-initialized. -/
def fireReinit (clientId : String) (s : SysState) : SysState :=
  initializeWhatsAppClient clientId
    { s with pendingReinits := s.pendingReinits.erase clientId }

/-- The ready filter of `POST /ban` (main.js line 139). -/
def readyClients (s : SysState) : List (String × ClientManager) :=
  s.whatsappClients.filter (fun p => p.2.status == "ready")

/-- `POST /ban` (main.js lines 132-158) up to the point where the response
is sent: validation (`400`), empty ready pool (`503`, nothing created), or
creation of the pending operation record (`200`).  The operation id is
time-plus-random in the source and is a parameter here.  Returns (HTTP
status, operation id of the response if any, next state). -/
def submitBan (opId targetNumber banType : String) (s : SysState) :
    Nat × Option String × SysState :=
  if targetNumber = "" ∨ banType = "" then (400, none, s)
  else if readyClients s = [] then (503, none, s)
  else
    (200, some opId,
      { s with
        activeOperations :=
          alSet opId
            { id := opId, targetNumber := targetNumber, banType := banType,
              status := "pending", clientsUsed := [] } s.activeOperations })

/-- Status of the operation record under `opId`, if any. -/
def statusOf (opId : String) (s : SysState) : Option String :=
  (alGet opId s.activeOperations).map Operation.status

/-- The synchronous prefix of `executeBanStrategy` (main.js lines 161-165):
look the operation up and set it `in_progress`. -/
def startExecOp (opId : String) (s : SysState) : SysState :=
  match alGet opId s.activeOperations with
  | none => s
  | some op =>
    { s with
      activeOperations := alSet opId { op with status := "in_progress" } s.activeOperations }

/-- One worker task pushing its outcome (main.js lines 211 and 214). -/
def recordOutcomeOp (opId : String) (o : Outcome) (s : SysState) : SysState :=
  match alGet opId s.activeOperations with
  | none => s
  | some op =>
    { s with
      activeOperations :=
        alSet opId { op with clientsUsed := op.clientsUsed ++ [o] } s.activeOperations }

/-- The tail of `executeBanStrategy` after `Promise.allSettled` (main.js
lines 223-224): mark the operation `completed`. -/
def finishExecOp (opId : String) (s : SysState) : SysState :=
  match alGet opId s.activeOperations with
  | none => s
  | some op =>
    { s with
      activeOperations := alSet opId { op with status := "completed" } s.activeOperations }

/-- The retention timer firing (main.js line 227): the completed operation
is purged one hour after completion. -/
def purgeOp (opId : String) (s : SysState) : SysState :=
  { s with activeOperations := alDelete opId s.activeOperations }

/-- The operation list served by `GET /status` (main.js line 93):
`Array.from(activeOperations.values())`. -/
def getStatusOps (s : SysState) : List Operation :=
  s.activeOperations.map Prod.snd

/-- Order of an operation's lifecycle stages. -/
def statusRank (st : String) : Nat :=
  if st = "pending" then 0
  else if st = "in_progress" then 1
  else if st = "completed" then 2
  else 3

/-- One atomic event of the single-threaded event loop, between suspension
points.  The guards encode the call discipline the source guarantees: a
submitted operation id is fresh (time + random suffix, unique per spec §3);
`executeBanStrategy` runs exactly once per operation, so its `in_progress`
prefix fires on the freshly created `pending` record, its outcome pushes and
its completion happen while the record is `in_progress`; the retention
timer that purges a record is scheduled only at completion; a delayed
re-initialization fires only if one was scheduled. -/
inductive Step : SysState → SysState → Prop
  | addReq (s : SysState) : Step s (addWorker s).2
  | removeReq (s : SysState) (clientId : String) : Step s (removeClient clientId s).2
  | reinitTimer (s : SysState) (clientId : String) (h : clientId ∈ s.pendingReinits) :
      Step s (fireReinit clientId s)
  | clientEvent (s : SysState) (clientId status : String) (qr : Option String) :
      Step s (updateClientStatus clientId status qr s)
  | submitReq (s : SysState) (opId targetNumber banType : String)
      (h : alGet opId s.activeOperations = none) :
      Step s (submitBan opId targetNumber banType s).2.2
  | startExec (s : SysState) (opId : String) (h : statusOf opId s = some "pending") :
      Step s (startExecOp opId s)
  | recordOutcome (s : SysState) (opId : String) (o : Outcome)
      (h : statusOf opId s = some "in_progress") :
      Step s (recordOutcomeOp opId o s)
  | finishExec (s : SysState) (opId : String) (h : statusOf opId s = some "in_progress") :
      Step s (finishExecOp opId s)
  | purgeTimer (s : SysState) (opId : String) (h : statusOf opId s = some "completed") :
      Step s (purgeOp opId s)

theorem updateClientStatus_ops (clientId status : String) (qr : Option String) (s : SysState) :
    (updateClientStatus clientId status qr s).activeOperations = s.activeOperations := by
  unfold updateClientStatus
  cases hg : alGet clientId s.whatsappClients with
  | none => rfl
  | some c =>
    cases qr with
    | none => dsimp only; split <;> rfl
    | some q => dsimp only; split <;> rfl

theorem initializeWhatsAppClient_ops (clientId : String) (s : SysState) :
    (initializeWhatsAppClient clientId s).activeOperations = s.activeOperations := by
  unfold initializeWhatsAppClient
  split <;> rfl

theorem addWorker_ops (s : SysState) :
    ((addWorker s).2).activeOperations = s.activeOperations := by
  unfold addWorker
  exact initializeWhatsAppClient_ops _ s

theorem removeClient_ops (clientId : String) (s : SysState) :
    ((removeClient clientId s).2).activeOperations = s.activeOperations := by
  unfold removeClient
  cases hg : alGet clientId s.whatsappClients with
  | none => rfl
  | some c =>
    dsimp only
    rw [updateClientStatus_ops]

theorem fireReinit_ops (clientId : String) (s : SysState) :
    (fireReinit clientId s).activeOperations = s.activeOperations := by
  unfold fireReinit
  rw [initializeWhatsAppClient_ops]

/-- C3 counterexample: start from a pool of one session, remove it
successfully (200, identity gone), and let the re-initialization that the
removal's own `destroyed` status callback scheduled fire: `client_1` is back
in the map, although no ensure-type call (`/whatsapp/add` or an explicit
`initializeWhatsAppClient` request) happened after the removal. -/
theorem C3_counterexample :
    (removeClient "client_1" (initialPool 1)).1 = 200 ∧
    alGet "client_1" ((removeClient "client_1" (initialPool 1)).2).whatsappClients = none ∧
    "client_1" ∈ ((removeClient "client_1" (initialPool 1)).2).pendingReinits ∧
    (alGet "client_1"
        (fireReinit "client_1"
          ((removeClient "client_1" (initialPool 1)).2)).whatsappClients).isSome = true := by
  refine ⟨rfl, by decide, by decide, by decide⟩

/-- C3 (amended): after a successful `remove(id)` the identity is
immediately absent from the session map — but the removal's own
`await client.destroy()` fires the status callback while the client is
still mapped, so `updateClientStatus` schedules a delayed
`initializeWhatsAppClient(id)`; when that timer fires, `id` is re-introduced
(as a fresh manager) without any subsequent ensure/add call. -/
theorem C3_removed_id_reintroduced_by_timer (s : SysState) (clientId : String)
    (c : ClientManager) (h : alGet clientId s.whatsappClients = some c) :
    (removeClient clientId s).1 = 200 ∧
    alGet clientId ((removeClient clientId s).2).whatsappClients = none ∧
    clientId ∈ ((removeClient clientId s).2).pendingReinits ∧
    alGet clientId (fireReinit clientId ((removeClient clientId s).2)).whatsappClients
      = some (newManager clientId) := by
  have hget1 :
      alGet clientId (alSet clientId { c with status := "destroyed" } s.whatsappClients)
        = some { c with status := "destroyed" } := alGet_alSet_self _ _ _
  have hrem : (removeClient clientId s).2 =
      { s with
        whatsappClients :=
          alDelete clientId
            (alSet clientId { c with status := "destroyed" }
              (alSet clientId { c with status := "destroyed" } s.whatsappClients)),
        qrCache := alDelete ("qr_" ++ clientId) s.qrCache,
        pendingReinits := s.pendingReinits ++ [clientId] } := by
    simp only [removeClient, h, updateClientStatus, hget1]
    rfl
  refine ⟨by simp only [removeClient, h], ?_, ?_, ?_⟩
  · rw [hrem]
    exact alGet_alDelete_self _ _
  · rw [hrem]
    simp
  · rw [hrem]
    have habs :
        alGet clientId
          (alDelete clientId
            (alSet clientId { c with status := "destroyed" }
              (alSet clientId { c with status := "destroyed" } s.whatsappClients))) = none :=
      alGet_alDelete_self _ _
    simp only [fireReinit, initializeWhatsAppClient, habs, Option.isSome_none, Bool.false_eq_true,
      if_false]
    exact alGet_append_right _ _ _ habs

/-- C3 witness: the one-session pool instance. -/
theorem C3_removed_id_reintroduced_by_timer_witness :
    (removeClient "client_1" (initialPool 1)).1 = 200 ∧
    alGet "client_1" ((removeClient "client_1" (initialPool 1)).2).whatsappClients = none ∧
    "client_1" ∈ ((removeClient "client_1" (initialPool 1)).2).pendingReinits ∧
    alGet "client_1"
        (fireReinit "client_1" ((removeClient "client_1" (initialPool 1)).2)).whatsappClients
      = some (newManager "client_1") :=
  C3_removed_id_reintroduced_by_timer (initialPool 1) "client_1" (newManager "client_1")
    (by decide)

/-- C5: a valid submission made while the set of ready workers is empty
returns 503 (`NoWorkersAvailableError`) and the state — in particular the
operations map — is completely unchanged; even an invalid submission (400)
leaves the state unchanged. -/
theorem C5_no_ready_workers_no_operation (s : SysState) (opId t b : String)
    (hready : readyClients s = []) :
    (submitBan opId t b s).2.2 = s ∧
    (t ≠ "" → b ≠ "" → (submitBan opId t b s).1 = 503) := by
  unfold submitBan
  by_cases h1 : t = "" ∨ b = ""
  · rw [if_pos h1]
    exact ⟨rfl, fun ht hb => absurd h1 (by simp [ht, hb])⟩
  · rw [if_neg h1, if_pos hready]
    exact ⟨rfl, fun _ _ => rfl⟩

/-- C5 witness: a pool whose only session is still `idle` (never `ready`). -/
theorem C5_no_ready_workers_no_operation_witness :
    (submitBan "op1" "T1" "REPORT_FLOOD" (initialPool 1)).2.2 = initialPool 1 ∧
    (submitBan "op1" "T1" "REPORT_FLOOD" (initialPool 1)).1 = 503 := by
  have h := C5_no_ready_workers_no_operation (initialPool 1) "op1" "T1" "REPORT_FLOOD" (by decide)
  exact ⟨h.1, h.2 (by decide) (by decide)⟩

/-- C8: removing an identity that is not in the Registry returns 404
(`NotFoundError`) and the returned state is the input state itself — session
map, cached tokens and operations all unchanged. -/
theorem C8_remove_unknown_id_404_no_change (s : SysState) (clientId : String)
    (h : alGet clientId s.whatsappClients = none) :
    removeClient clientId s = (404, s) := by
  simp only [removeClient, h]

/-- C8 witness: the spec scenario — `remove("w9")` on a Registry without
`w9` (here the startup pool of three). -/
theorem C8_remove_unknown_id_404_no_change_witness :
    removeClient "w9" (initialPool 3) = (404, initialPool 3) :=
  C8_remove_unknown_id_404_no_change (initialPool 3) "w9" (by decide)

/-- C7: a successful submission returns 200 with the operation id, and the
state it leaves behind — the one a `status()` round-trip immediately after
`submit()` reads — holds the new Operation: present in the served list, in
state `pending` (hence `pending` or `in_progress`, never `completed`); and
the first synchronous action of the scheduled executor moves it to
`in_progress`, still never `completed`. -/
theorem C7_submit_status_roundtrip (s : SysState) (opId t b : String)
    (h1 : t ≠ "") (h2 : b ≠ "") (h3 : readyClients s ≠ []) :
    (submitBan opId t b s).1 = 200 ∧
    (submitBan opId t b s).2.1 = some opId ∧
    ∃ op : Operation,
      alGet opId ((submitBan opId t b s).2.2).activeOperations = some op ∧
      op ∈ getStatusOps ((submitBan opId t b s).2.2) ∧
      (op.status = "pending" ∨ op.status = "in_progress") ∧
      op.status ≠ "completed" ∧
      alGet opId (startExecOp opId ((submitBan opId t b s).2.2)).activeOperations
        = some { op with status := "in_progress" } := by
  have hval : ¬(t = "" ∨ b = "") := not_or.mpr ⟨h1, h2⟩
  have hsub : submitBan opId t b s =
      (200, some opId,
        { s with
          activeOperations :=
            alSet opId ⟨opId, t, b, "pending", []⟩ s.activeOperations }) := by
    simp [submitBan, hval, h3]
  rw [hsub]
  refine ⟨rfl, rfl, ⟨opId, t, b, "pending", []⟩, alGet_alSet_self _ _ _, ?_, Or.inl rfl,
    fun hc => (by decide : ¬("pending" : String) = "completed") hc, ?_⟩
  · exact alGet_mem_map_snd _ _ _ (alGet_alSet_self _ _ _)
  · simp only [startExecOp, alGet_alSet_self]

/-- A pool of one session that has reported `ready`. -/
def sReady : SysState := updateClientStatus "client_1" "ready" none (initialPool 1)

/-- C7 witness: submitting target `T1`, strategy `A` on a pool with one
ready worker. -/
theorem C7_submit_status_roundtrip_witness :
    (submitBan "op1" "T1" "A" sReady).1 = 200 ∧
    (submitBan "op1" "T1" "A" sReady).2.1 = some "op1" ∧
    ∃ op : Operation,
      alGet "op1" ((submitBan "op1" "T1" "A" sReady).2.2).activeOperations = some op ∧
      op ∈ getStatusOps ((submitBan "op1" "T1" "A" sReady).2.2) ∧
      (op.status = "pending" ∨ op.status = "in_progress") ∧
      op.status ≠ "completed" ∧
      alGet "op1" (startExecOp "op1" ((submitBan "op1" "T1" "A" sReady).2.2)).activeOperations
        = some { op with status := "in_progress" } :=
  C7_submit_status_roundtrip sReady "op1" "T1" "A" (by decide) (by decide) (by decide)

/-- C9: the identity minted by `POST /whatsapp/add` is always
`client_` + (session-map size + 1); and for the reachable state obtained by
populating `client_1..client_3`, marking `client_3` ready, then removing
`client_2`, the add request computes `client_3` — an identity that is still
live — and `initializeWhatsAppClient` destroys and replaces that session
(its `ready` manager is swapped for a fresh one) while the pool size stays
at 2 instead of growing to 3. -/
theorem C9_add_reuses_existing_identity :
    (∀ s : SysState, (addWorker s).1 = "client_" ++ toString (s.whatsappClients.length + 1)) ∧
    ((addWorker
        ((removeClient "client_2"
          (updateClientStatus "client_3" "ready" none (initialPool 3))).2)).1 = "client_3" ∧
     (alGet "client_3"
        ((removeClient "client_2"
          (updateClientStatus "client_3" "ready" none (initialPool 3))).2).whatsappClients).isSome
        = true ∧
     alGet "client_3"
        ((removeClient "client_2"
          (updateClientStatus "client_3" "ready" none (initialPool 3))).2).whatsappClients
        ≠ some (newManager "client_3") ∧
     ((removeClient "client_2"
        (updateClientStatus "client_3" "ready" none (initialPool 3))).2).whatsappClients.length
        = 2 ∧
     ((addWorker
        ((removeClient "client_2"
          (updateClientStatus "client_3" "ready" none (initialPool 3))).2)).2).whatsappClients.length
        = 2 ∧
     alGet "client_3"
        ((addWorker
          ((removeClient "client_2"
            (updateClientStatus "client_3" "ready" none (initialPool 3))).2)).2).whatsappClients
        = some (newManager "client_3")) := by
  refine ⟨fun s => rfl, by decide, by decide, by decide, by decide, by decide, by decide⟩

/-- C10: across every atomic event of the event loop, an operation record's
status only moves forward along pending → in_progress → completed: whenever
the record exists before and after the step its rank never decreases, a
record that appears in a step appears as `pending`, and a record that is
already `completed` is never mutated again — any later step either leaves it
exactly as it is or purges it. -/
theorem C10_operation_status_monotone (s s' : SysState) (hstep : Step s s') (opId : String) :
    (∀ op op' : Operation,
      alGet opId s.activeOperations = some op →
      alGet opId s'.activeOperations = some op' →
      statusRank op.status ≤ statusRank op'.status ∧
      (op.status = "completed" → op' = op)) ∧
    (alGet opId s.activeOperations = none →
      ∀ op' : Operation, alGet opId s'.activeOperations = some op' →
      op'.status = "pending") := by
  have base : ∀ l : List (String × Operation),
      (∀ op op' : Operation, alGet opId l = some op → alGet opId l = some op' →
        statusRank op.status ≤ statusRank op'.status ∧
        (op.status = "completed" → op' = op)) ∧
      (alGet opId l = none → ∀ op' : Operation, alGet opId l = some op' →
        op'.status = "pending") := by
    intro l
    constructor
    · intro op op' hA hB
      rw [hA] at hB
      obtain rfl : op = op' := Option.some.inj hB
      exact ⟨Nat.le_refl _, fun _ => rfl⟩
    · intro hn op' hs
      rw [hn] at hs
      exact Option.noConfusion hs
  cases hstep with
  | addReq => rw [addWorker_ops]; exact base s.activeOperations
  | removeReq cid => rw [removeClient_ops]; exact base s.activeOperations
  | reinitTimer cid h => rw [fireReinit_ops]; exact base s.activeOperations
  | clientEvent cid st qr => rw [updateClientStatus_ops]; exact base s.activeOperations
  | submitReq opId0 tn bt hfresh =>
    by_cases hval : tn = "" ∨ bt = ""
    · have hst : (submitBan opId0 tn bt s).2.2 = s := by simp [submitBan, hval]
      rw [hst]; exact base s.activeOperations
    · by_cases hrdy : readyClients s = []
      · have hst : (submitBan opId0 tn bt s).2.2 = s := by simp [submitBan, hval, hrdy]
        rw [hst]; exact base s.activeOperations
      · have hst : ((submitBan opId0 tn bt s).2.2).activeOperations
            = alSet opId0 ⟨opId0, tn, bt, "pending", []⟩ s.activeOperations := by
          simp [submitBan, hval, hrdy]
        rw [hst]
        constructor
        · intro op op' hA hB
          by_cases he : opId = opId0
          · subst he; rw [hfresh] at hA; exact Option.noConfusion hA
          · rw [alGet_alSet_of_ne _ _ _ _ he, hA] at hB
            obtain rfl : op = op' := Option.some.inj hB
            exact ⟨Nat.le_refl _, fun _ => rfl⟩
        · intro hn op' hs
          by_cases he : opId = opId0
          · subst he
            rw [alGet_alSet_self] at hs
            obtain rfl : (⟨opId, tn, bt, "pending", []⟩ : Operation) = op' :=
              Option.some.inj hs
            rfl
          · rw [alGet_alSet_of_ne _ _ _ _ he, hn] at hs
            exact Option.noConfusion hs
  | startExec opId0 h =>
    have hx : ∃ op0 : Operation,
        alGet opId0 s.activeOperations = some op0 ∧ op0.status = "pending" := by
      unfold statusOf at h
      cases hg : alGet opId0 s.activeOperations with
      | none => rw [hg] at h; simp at h
      | some o => rw [hg] at h; simp at h; exact ⟨o, rfl, h⟩
    obtain ⟨op0, hop0, hst0⟩ := hx
    have hops : (startExecOp opId0 s).activeOperations
        = alSet opId0 { op0 with status := "in_progress" } s.activeOperations := by
      simp [startExecOp, hop0]
    rw [hops]
    constructor
    · intro op op' hA hB
      by_cases he : opId = opId0
      · subst he
        rw [hop0] at hA
        obtain rfl : op0 = op := Option.some.inj hA
        rw [alGet_alSet_self] at hB
        obtain rfl : { op0 with status := "in_progress" } = op' := Option.some.inj hB
        refine ⟨?_, fun hc => absurd (hst0 ▸ hc) (by decide)⟩
        rw [hst0]
        show statusRank "pending" ≤ statusRank "in_progress"
        decide
      · rw [alGet_alSet_of_ne _ _ _ _ he, hA] at hB
        obtain rfl : op = op' := Option.some.inj hB
        exact ⟨Nat.le_refl _, fun _ => rfl⟩
    · intro hn op' hs
      by_cases he : opId = opId0
      · subst he; rw [hn] at hop0; exact Option.noConfusion hop0
      · rw [alGet_alSet_of_ne _ _ _ _ he, hn] at hs
        exact Option.noConfusion hs
  | recordOutcome opId0 o h =>
    have hx : ∃ op0 : Operation,
        alGet opId0 s.activeOperations = some op0 ∧ op0.status = "in_progress" := by
      unfold statusOf at h
      cases hg : alGet opId0 s.activeOperations with
      | none => rw [hg] at h; simp at h
      | some o' => rw [hg] at h; simp at h; exact ⟨o', rfl, h⟩
    obtain ⟨op0, hop0, hst0⟩ := hx
    have hops : (recordOutcomeOp opId0 o s).activeOperations
        = alSet opId0 { op0 with clientsUsed := op0.clientsUsed ++ [o] } s.activeOperations := by
      simp [recordOutcomeOp, hop0]
    rw [hops]
    constructor
    · intro op op' hA hB
      by_cases he : opId = opId0
      · subst he
        rw [hop0] at hA
        obtain rfl : op0 = op := Option.some.inj hA
        rw [alGet_alSet_self] at hB
        obtain rfl : { op0 with clientsUsed := op0.clientsUsed ++ [o] } = op' :=
          Option.some.inj hB
        exact ⟨Nat.le_refl _, fun hc => absurd (hst0 ▸ hc) (by decide)⟩
      · rw [alGet_alSet_of_ne _ _ _ _ he, hA] at hB
        obtain rfl : op = op' := Option.some.inj hB
        exact ⟨Nat.le_refl _, fun _ => rfl⟩
    · intro hn op' hs
      by_cases he : opId = opId0
      · subst he; rw [hn] at hop0; exact Option.noConfusion hop0
      · rw [alGet_alSet_of_ne _ _ _ _ he, hn] at hs
        exact Option.noConfusion hs
  | finishExec opId0 h =>
    have hx : ∃ op0 : Operation,
        alGet opId0 s.activeOperations = some op0 ∧ op0.status = "in_progress" := by
      unfold statusOf at h
      cases hg : alGet opId0 s.activeOperations with
      | none => rw [hg] at h; simp at h
      | some o' => rw [hg] at h; simp at h; exact ⟨o', rfl, h⟩
    obtain ⟨op0, hop0, hst0⟩ := hx
    have hops : (finishExecOp opId0 s).activeOperations
        = alSet opId0 { op0 with status := "completed" } s.activeOperations := by
      simp [finishExecOp, hop0]
    rw [hops]
    constructor
    · intro op op' hA hB
      by_cases he : opId = opId0
      · subst he
        rw [hop0] at hA
        obtain rfl : op0 = op := Option.some.inj hA
        rw [alGet_alSet_self] at hB
        obtain rfl : { op0 with status := "completed" } = op' := Option.some.inj hB
        refine ⟨?_, fun hc => absurd (hst0 ▸ hc) (by decide)⟩
        rw [hst0]
        show statusRank "in_progress" ≤ statusRank "completed"
        decide
      · rw [alGet_alSet_of_ne _ _ _ _ he, hA] at hB
        obtain rfl : op = op' := Option.some.inj hB
        exact ⟨Nat.le_refl _, fun _ => rfl⟩
    · intro hn op' hs
      by_cases he : opId = opId0
      · subst he; rw [hn] at hop0; exact Option.noConfusion hop0
      · rw [alGet_alSet_of_ne _ _ _ _ he, hn] at hs
        exact Option.noConfusion hs
  | purgeTimer opId0 h =>
    constructor
    · intro op op' hA hB
      by_cases he : opId = opId0
      · subst he
        rw [show (purgeOp opId s).activeOperations = alDelete opId s.activeOperations from rfl,
          alGet_alDelete_self] at hB
        exact Option.noConfusion hB
      · rw [show (purgeOp opId0 s).activeOperations = alDelete opId0 s.activeOperations from rfl,
          alGet_alDelete_of_ne _ _ _ he, hA] at hB
        obtain rfl : op = op' := Option.some.inj hB
        exact ⟨Nat.le_refl _, fun _ => rfl⟩
    · intro hn op' hs
      by_cases he : opId = opId0
      · subst he
        rw [show (purgeOp opId s).activeOperations = alDelete opId s.activeOperations from rfl,
          alGet_alDelete_self] at hs
        exact Option.noConfusion hs
      · rw [show (purgeOp opId0 s).activeOperations = alDelete opId0 s.activeOperations from rfl,
          alGet_alDelete_of_ne _ _ _ he, hn] at hs
        exact Option.noConfusion hs

/-- The state right after a successful submission on the one-ready-worker
pool: operation `op1` exists and is `pending`. -/
def sOpPending : SysState := (submitBan "op1" "T1" "A" sReady).2.2

/-- C10 witness: instantiating the monotonicity theorem on the concrete
step that starts executing `op1` (pending → in_progress). -/
theorem C10_operation_status_monotone_witness :
    statusRank (Operation.status ⟨"op1", "T1", "A", "pending", []⟩) ≤
      statusRank (Operation.status ⟨"op1", "T1", "A", "in_progress", []⟩) ∧
    (Operation.status ⟨"op1", "T1", "A", "pending", []⟩ = "completed" →
      (⟨"op1", "T1", "A", "in_progress", []⟩ : Operation)
        = ⟨"op1", "T1", "A", "pending", []⟩) :=
  (C10_operation_status_monotone sOpPending (startExecOp "op1" sOpPending)
      (Step.startExec sOpPending "op1" (by decide)) "op1").1
    ⟨"op1", "T1", "A", "pending", []⟩ ⟨"op1", "T1", "A", "in_progress", []⟩
    (by decide) (by decide)
